import Mathlib

/-!
Shallow embedding of the appeals controller
(src/controllers/appealsController.js) of the Nurswizz/appeals service.

The controller manages "appeal" documents in a MongoDB collection.  We model
the collection as a list of documents plus a counter for store-generated ids,
and each Express handler as a pure function from its request data and the
store state to an HTTP response (status code plus JSON body) and the new
store state.  Timestamps (`new Date()`) are passed in explicitly as the
`now` argument.
-/

namespace Appeals

/-- Truthiness of an optional string field of a JS request object: `undefined`
(modelled as `none`) and the empty string are falsy, every other string is
truthy.  This is the test performed by the controller's guards such as
`if (!title || !description)`. -/
def truthy : Option String → Bool
  | none => false
  | some s => !s.isEmpty

/-- Object.values of the controller's APPEAL_STATUSES constant:
NEW, IN_PROGRESS, COMPLETED, CANCELED. -/
def APPEAL_STATUSES : List String := ["new", "in-progress", "completed", "canceled"]

/-- An appeal document as the controller stores it.  Fields that the code only
sometimes writes (`status`, `updatedAt`, `solution`, `reason`) are `Option`s;
`none` means the field is absent from the document.  Timestamps are
model-milliseconds (`Int`), document ids are the store-generated `Nat` from
the model of ObjectId below. -/
structure Appeal where
  _id : Nat
  title : String
  description : String
  status : Option String
  createdAt : Int
  updatedAt : Option Int
  solution : Option String
  reason : Option String
deriving Repr, DecidableEq

/-- The document store: the `appeals` collection plus the id the store will
assign to the next inserted document. -/
structure Store where
  docs : List Appeal
  nextId : Nat
deriving Repr, DecidableEq

/-- A JSON response body: a `message` object, an `error` object, a `message`
plus `id` object, or a bare array of appeals. -/
inductive Body where
  | msg (m : String)
  | err (e : String)
  | msgId (m : String) (id : Nat)
  | arr (docs : List Appeal)
deriving Repr, DecidableEq

/-- An HTTP response: status code plus JSON body. -/
structure Response where
  status : Nat
  body : Body
deriving Repr, DecidableEq

/-- Split a character list at every dash. -/
def splitDash : List Char → List (List Char)
  | [] => [[]]
  | c :: rest =>
    if c = '-' then [] :: splitDash rest
    else
      match splitDash rest with
      | [] => [[c]]
      | g :: gs => (c :: g) :: gs

/-- Read a non-empty all-digit character list as a natural number. -/
def digitsToNat : List Char → Option Nat
  | [] => none
  | l =>
    if l.all Char.isDigit then
      some (l.foldl (fun n c => 10 * n + (c.toNat - Char.toNat '0')) 0)
    else none

/-- Model of the JavaScript Date constructor on the calendar-date strings
the repository's API uses (the `YYYY-MM-DD` form, e.g. "2025-05-17").
A well-formed date parses to a day-granular timestamp that is strictly
monotone in the calendar date, with one day equal to 86400000
model-milliseconds; any other string yields NaN, modelled as `none`.
The model's epoch differs from the Unix epoch, but every comparison and
day-boundary computation the controller performs is preserved. -/
def parseDate (s : String) : Option Int :=
  match splitDash s.toList with
  | [ys, ms, ds] =>
    match digitsToNat ys, digitsToNat ms, digitsToNat ds with
    | some y, some m, some d =>
      if 1 ≤ m && m ≤ 12 && 1 ≤ d && d ≤ 31 then
        some (Int.ofNat ((((y * 12 + (m - 1)) * 31) + (d - 1)) * 86400000))
      else none
    | _, _, _ => none
  | _ => none

/-- Model of `date.setHours(0, 0, 0, 0)`: truncate the timestamp to the start
of its day. -/
def setHoursStart (t : Int) : Int := t - t.emod 86400000

/-- Model of the controller's second, aliased `setHours(23, 59, 59, 999)`
call, which runs on the date object already mutated to the start of the day:
end of that same day. -/
def setHoursEnd (t : Int) : Int := t + 86399999

/-- Model of the bson ObjectId constructor applied to a request parameter.
The constructor accepts a 24-character hexadecimal string, mapped here to the
numeric id it denotes, and also any 12-character string, interpreted as the
twelve bytes of the id (mapped here by folding the character codes); every
other string makes the constructor throw, modelled as `none`. -/
def parseObjectId (id : String) : Option Nat :=
  if id.length = 24 && id.toList.all (fun c =>
      (('0' ≤ c) && (c ≤ '9')) || (('a' ≤ c) && (c ≤ 'f')) || (('A' ≤ c) && (c ≤ 'F'))) then
    some (id.toList.foldl (fun n c =>
      16 * n +
        (if ('0' ≤ c) && (c ≤ '9') then c.toNat - '0'.toNat
         else if ('a' ≤ c) && (c ≤ 'f') then c.toNat - 'a'.toNat + 10
         else c.toNat - 'A'.toNat + 10)) 0)
  else if id.length = 12 then
    some (id.toList.foldl (fun n c => 256 * n + c.toNat) 0)
  else none

/-- The MongoDB query document `getAppeals` builds: an optional inclusive
range on `createdAt` (the `$gte`/`$lte` keys) and an optional equality
condition on `status`. -/
structure FindQuery where
  createdAtGte : Option Int
  createdAtLte : Option Int
  status : Option String
deriving Repr, DecidableEq

/-- Whether a document matches a `FindQuery`.  An absent `status` field
matches no `status` condition, as in MongoDB. -/
def matchesQuery (q : FindQuery) (a : Appeal) : Bool :=
  (match q.createdAtGte with | none => true | some lo => lo ≤ a.createdAt) &&
  (match q.createdAtLte with | none => true | some hi => a.createdAt ≤ hi) &&
  (match q.status with | none => true | some s => a.status = some s)

/-- The descending-`createdAt` order the store's `sort` call requests with
`createdAt: -1`. -/
def createdAtDesc (a b : Appeal) : Prop := b.createdAt ≤ a.createdAt

instance : DecidableRel createdAtDesc :=
  fun a b => inferInstanceAs (Decidable (b.createdAt ≤ a.createdAt))

/-- Model of the store's `sort` on `createdAt: -1`: sort the matching
documents in descending order of `createdAt` (ties in an unspecified
relative order). -/
def sortByCreatedAtDesc (l : List Appeal) : List Appeal :=
  List.insertionSort createdAtDesc l

/-- Model of `collection.updateOne(filter, setter)`: apply the setter to the
first document matching the filter (document ids are unique, so at most one
matches).  Returns the new document list and the store's `modifiedCount`,
which counts a matched document only if the update actually changed it. -/
def updateFirst (p : Appeal → Bool) (f : Appeal → Appeal) :
    List Appeal → List Appeal × Nat
  | [] => ([], 0)
  | a :: rest =>
    if p a then
      (f a :: rest, if f a = a then 0 else 1)
    else
      let r := updateFirst p f rest
      (a :: r.1, r.2)

/-- Model of `collection.updateMany(filter, setter)`: apply the setter to
every document matching the filter; `modifiedCount` counts the matched
documents the update actually changed. -/
def updateAll (p : Appeal → Bool) (f : Appeal → Appeal) :
    List Appeal → List Appeal × Nat
  | [] => ([], 0)
  | a :: rest =>
    let r := updateAll p f rest
    if p a then
      (f a :: r.1, (if f a = a then 0 else 1) + r.2)
    else
      (a :: r.1, r.2)

/-- The `createAppeal` handler.  `title` and `description` come from the
request body (`none` when absent); `now` is the value of `new Date()`.
Note that the inserted document carries only `title`, `description` and
`createdAt`: the handler writes no `status` field. -/
def createAppeal (title description : Option String) (now : Int) (s : Store) :
    Response × Store :=
  if !truthy title || !truthy description then
    (⟨400, .msg "Title and description are required"⟩, s)
  else
    let newAppeal : Appeal :=
      { _id := s.nextId, title := title.getD "", description := description.getD "",
        status := none, createdAt := now, updatedAt := none,
        solution := none, reason := none }
    (⟨201, .msgId "Appeal created successfully" s.nextId⟩,
     { docs := s.docs ++ [newAppeal], nextId := s.nextId + 1 })

/-- The query string of a GET /appeals request.  `limit` and `page` appear in
the route's OpenAPI documentation and the HTTP interface, but the controller
destructures only `date`, `startDate`, `endDate` and `status` from
`req.query` and never reads the other two. -/
structure ListQuery where
  date : Option String := none
  startDate : Option String := none
  endDate : Option String := none
  status : Option String := none
  limit : Option String := none
  page : Option String := none
deriving Repr, DecidableEq

/-- The `date` branch of `getAppeals`: when a truthy `date` is supplied,
either reject an unparsable value or constrain `createdAt` to that day. -/
def dateStep (q : ListQuery) (fq : FindQuery) : Except Response FindQuery :=
  if truthy q.date then
    match parseDate (q.date.getD "") with
    | none => .error ⟨400, .err "Invalid format of date"⟩
    | some t =>
      .ok { fq with createdAtGte := some (setHoursStart t),
                    createdAtLte := some (setHoursEnd (setHoursStart t)) }
  else .ok fq

/-- The `startDate && endDate` branch of `getAppeals`: only when both are
truthy, either reject an unparsable bound or overwrite the `createdAt`
condition with the inclusive range. -/
def rangeStep (q : ListQuery) (fq : FindQuery) : Except Response FindQuery :=
  if truthy q.startDate && truthy q.endDate then
    match parseDate (q.startDate.getD ""), parseDate (q.endDate.getD "") with
    | some a, some b =>
      .ok { fq with createdAtGte := some a, createdAtLte := some b }
    | none, _ => .error ⟨400, .err "Invalid format of interval of dates"⟩
    | some _, none => .error ⟨400, .err "Invalid format of interval of dates"⟩
  else .ok fq

/-- The `status` branch of `getAppeals`: the condition is added only when the
supplied status is truthy and one of the four valid values; otherwise the
parameter is silently ignored. -/
def statusStep (q : ListQuery) (fq : FindQuery) : FindQuery :=
  if truthy q.status && APPEAL_STATUSES.contains (q.status.getD "") then
    { fq with status := q.status }
  else fq

/-- The query document `getAppeals` builds from the request, or the early
validation response. -/
def buildQuery (q : ListQuery) : Except Response FindQuery :=
  match dateStep q ⟨none, none, none⟩ with
  | .error r => .error r
  | .ok fq1 =>
    match rangeStep q fq1 with
    | .error r => .error r
    | .ok fq2 => .ok (statusStep q fq2)

/-- The `getAppeals` handler: build the query, find the matching documents
sorted by `createdAt` descending, and respond with the bare array.  The
success path answers `res.status(400).json(appeals)` — HTTP status 400 —
and applies no skip/limit or pagination of any kind. -/
def getAppeals (q : ListQuery) (s : Store) : Response :=
  match buildQuery q with
  | .error r => r
  | .ok fq => ⟨400, .arr (sortByCreatedAtDesc (s.docs.filter (matchesQuery fq)))⟩

/-- The `$set` document of `workOnAppeal`. -/
def setInProgress (now : Int) (a : Appeal) : Appeal :=
  { a with status := some "in-progress", updatedAt := some now }

/-- The `$set` document of `completeAppeal`.  The source passes an object
pushing `solution` as the third argument of `updateOne` — the driver's
options parameter — so no `solution` field is ever written to the document;
only `status` and `updatedAt` change. -/
def setCompleted (now : Int) (a : Appeal) : Appeal :=
  { a with status := some "completed", updatedAt := some now }

/-- The `$set` document of `cancelAppeal`.  As with `setCompleted`, the
object pushing `reason` sits in `updateOne`'s options parameter and has no
effect on the document. -/
def setCanceled (now : Int) (a : Appeal) : Appeal :=
  { a with status := some "canceled", updatedAt := some now }

/-- The `workOnAppeal` handler.  `ObjectId(id)` runs inside the `try` block,
so a malformed id surfaces as the catch-all 500 response, not as 404. -/
def workOnAppeal (id : String) (now : Int) (s : Store) : Response × Store :=
  match parseObjectId id with
  | none => (⟨500, .msg "Internal server error"⟩, s)
  | some oid =>
    let r := updateFirst (fun a => a._id = oid) (setInProgress now) s.docs
    if r.2 = 0 then
      (⟨404, .msg "Appeal not found"⟩, { s with docs := r.1 })
    else
      (⟨200, .msg "Appeal updated successfully"⟩, { s with docs := r.1 })

/-- The `completeAppeal` handler.  The `solution` guard runs before the
store call; the update sets only `status` and `updatedAt` (see
`setCompleted`). -/
def completeAppeal (id : String) (solution : Option String) (now : Int) (s : Store) :
    Response × Store :=
  if !truthy solution then
    (⟨400, .msg "Solution is required"⟩, s)
  else
    match parseObjectId id with
    | none => (⟨500, .msg "Internal server error"⟩, s)
    | some oid =>
      let r := updateFirst (fun a => a._id = oid) (setCompleted now) s.docs
      if r.2 = 0 then
        (⟨404, .msg "Appeal not found"⟩, { s with docs := r.1 })
      else
        (⟨200, .msg "Appeal updated successfully"⟩, { s with docs := r.1 })

/-- The `cancelAppeal` handler.  The `reason` guard runs before the store
call; the update sets only `status` and `updatedAt` (see `setCanceled`). -/
def cancelAppeal (id : String) (reason : Option String) (now : Int) (s : Store) :
    Response × Store :=
  if !truthy reason then
    (⟨400, .msg "Reason is required"⟩, s)
  else
    match parseObjectId id with
    | none => (⟨500, .msg "Internal server error"⟩, s)
    | some oid =>
      let r := updateFirst (fun a => a._id = oid) (setCanceled now) s.docs
      if r.2 = 0 then
        (⟨404, .msg "Appeal not found"⟩, { s with docs := r.1 })
      else
        (⟨200, .msg "Appeal updated successfully"⟩, { s with docs := r.1 })

/-- The filter document of the bulk cancel's `updateMany`: status equals
`in-progress`. -/
def inProgressCheck (a : Appeal) : Bool := a.status = some "in-progress"

/-- The `cancelAllAppealsWithInProgressStatus` handler.  The handler never
reads the request body: the `reason` parameter models the body the HTTP
layer delivers and is ignored, exactly as in the source.  Every document
whose `status` is `in-progress` is set to `canceled` with `updatedAt = now`
in one `updateMany`; a zero `modifiedCount` yields the 404 response. -/
def cancelAllAppealsWithInProgressStatus (reason : Option String) (now : Int)
    (s : Store) : Response × Store :=
  let _ := reason
  let r := updateAll inProgressCheck (setCanceled now) s.docs
  if r.2 = 0 then
    (⟨404, .msg "No appeals found with in-progress status"⟩, { s with docs := r.1 })
  else
    (⟨200, .msg "All in-progress appeals updated successfully"⟩, { s with docs := r.1 })

/-- Whether a response body is the controller's error object (the `error`
key), as opposed to a message object or a result array. -/
def isErr : Body → Bool
  | .err _ => true
  | _ => false

/-- The array of appeals carried by a response, empty for non-array bodies. -/
def listedAppeals (r : Response) : List Appeal :=
  match r.body with
  | .arr l => l
  | _ => []

/-- Appeal fixture with fixed title and description, as in the repository's
test suite. -/
def mkAppeal (i : Nat) (t : Int) (st : Option String) : Appeal :=
  ⟨i, "Test Appeal", "Test Description", st, t, none, none, none⟩

/-- Hex string of the ObjectId of document 1. -/
def hexId1 : String := "000000000000000000000001"

/-- Hex string of the ObjectId of document 2 (used as an id matching no
record). -/
def hexId2 : String := "000000000000000000000002"

/-- A store holding 150 documents with distinct creation times. -/
def store150 : Store :=
  ⟨(List.range 150).map (fun i => mkAppeal i (150 - (i : Int)) (some "new")), 150⟩

/-- A store holding one document, id 1, status `new`. -/
def storeOneNew : Store := ⟨[mkAppeal 1 0 (some "new")], 2⟩

/-- A store holding one document, id 1, status `in-progress`. -/
def storeOneInProgress : Store := ⟨[mkAppeal 1 0 (some "in-progress")], 2⟩

/-- A store holding one document, id 1, in the terminal status `canceled`. -/
def storeOneCanceled : Store := ⟨[mkAppeal 1 0 (some "canceled")], 2⟩

/-- A store holding two documents created at the same instant. -/
def storeTie : Store := ⟨[mkAppeal 1 5 (some "new"), mkAppeal 2 5 (some "new")], 3⟩

/-- A store holding two `in-progress` documents and one `new` document, as in
the spec's bulk-cancel test property. -/
def storeBulk : Store :=
  ⟨[mkAppeal 1 0 (some "in-progress"), mkAppeal 2 1 (some "in-progress"),
    mkAppeal 3 2 (some "new")], 4⟩

lemma updateFirst_no_match (p : Appeal → Bool) (f : Appeal → Appeal) :
    ∀ l : List Appeal, (∀ a ∈ l, p a = false) → updateFirst p f l = (l, 0) := by
  intro l
  induction l with
  | nil => intro _; rfl
  | cons b rest ih =>
    intro h
    have hb : p b = false := h b (List.mem_cons_self _ _)
    have hrest := ih (fun a ha => h a (List.mem_cons_of_mem _ ha))
    simp [updateFirst, hb, hrest]

lemma updateFirst_find (p : Appeal → Bool) (f : Appeal → Appeal)
    (hp : ∀ x, p x = true → p (f x) = true) :
    ∀ (l : List Appeal) (a : Appeal), l.find? p = some a →
      (updateFirst p f l).1.find? p = some (f a) ∧
      (updateFirst p f l).2 = (if f a = a then 0 else 1) := by
  intro l
  induction l with
  | nil => intro a h; simp [List.find?] at h
  | cons b rest ih =>
    intro a h
    cases hb : p b with
    | true =>
      rw [List.find?_cons_of_pos _ hb] at h
      cases h
      constructor
      · simp [updateFirst, hb, List.find?_cons_of_pos _ (hp b hb)]
      · simp [updateFirst, hb]
    | false =>
      simp only [List.find?, hb] at h
      have := ih a h
      constructor
      · simp [updateFirst, hb, List.find?, this.1]
      · simp [updateFirst, hb, this.2]

lemma updateAll_fst (p : Appeal → Bool) (f : Appeal → Appeal) :
    ∀ l : List Appeal,
      (updateAll p f l).1 = l.map (fun a => if p a then f a else a) := by
  intro l
  induction l with
  | nil => rfl
  | cons b rest ih =>
    cases hb : p b <;> simp [updateAll, hb, ih]

lemma updateAll_snd_eq_zero (p : Appeal → Bool) (f : Appeal → Appeal) :
    ∀ l : List Appeal,
      ((updateAll p f l).2 = 0 ↔ ∀ a ∈ l, p a = true → f a = a) := by
  intro l
  induction l with
  | nil => simp [updateAll]
  | cons b rest ih =>
    cases hb : p b with
    | false =>
      have hcount : (updateAll p f (b :: rest)).2 = (updateAll p f rest).2 := by
        simp [updateAll, hb]
      rw [hcount, ih]
      constructor
      · intro h a ha hpa
        rcases List.mem_cons.mp ha with rfl | ha'
        · exact absurd hpa (by simp [hb])
        · exact h a ha' hpa
      · intro h a ha hpa
        exact h a (List.mem_cons_of_mem _ ha) hpa
    | true =>
      by_cases hfb : f b = b
      · have hcount : (updateAll p f (b :: rest)).2 = (updateAll p f rest).2 := by
          simp [updateAll, hb, hfb]
        rw [hcount, ih]
        constructor
        · intro h a ha hpa
          rcases List.mem_cons.mp ha with rfl | ha'
          · exact hfb
          · exact h a ha' hpa
        · intro h a ha hpa
          exact h a (List.mem_cons_of_mem _ ha) hpa
      · have hcount : (updateAll p f (b :: rest)).2 = 1 + (updateAll p f rest).2 := by
          simp [updateAll, hb, hfb]
        rw [hcount]
        constructor
        · intro h
          exact absurd h (by omega)
        · intro h
          exact absurd (h b (List.mem_cons_self _ _) hb) hfb

lemma dateStep_error {q : ListQuery} {fq : FindQuery} {r : Response}
    (h : dateStep q fq = .error r) : r.body = .err "Invalid format of date" := by
  unfold dateStep at h
  split at h
  · split at h
    · cases h; rfl
    · cases h
  · cases h

lemma rangeStep_error {q : ListQuery} {fq : FindQuery} {r : Response}
    (h : rangeStep q fq = .error r) :
    r.body = .err "Invalid format of interval of dates" := by
  unfold rangeStep at h
  split at h
  · split at h
    · cases h
    · cases h; rfl
    · cases h; rfl
  · cases h

lemma buildQuery_error_body {q : ListQuery} {r : Response}
    (h : buildQuery q = .error r) : ∃ m, r.body = .err m := by
  unfold buildQuery at h
  split at h
  next heq =>
    cases h
    exact ⟨_, dateStep_error heq⟩
  next fq1 heq =>
    split at h
    next heq2 =>
      cases h
      exact ⟨_, rangeStep_error heq2⟩
    next fq2 heq2 =>
      cases h

lemma dateStep_ok_status {q : ListQuery} {fq fq' : FindQuery}
    (h : dateStep q fq = .ok fq') : fq'.status = fq.status := by
  unfold dateStep at h
  split at h
  · split at h
    · cases h
    · cases h; rfl
  · cases h; rfl

lemma rangeStep_ok_status {q : ListQuery} {fq fq' : FindQuery}
    (h : rangeStep q fq = .ok fq') : fq'.status = fq.status := by
  unfold rangeStep at h
  split at h
  · split at h
    · cases h; rfl
    · cases h
    · cases h
  · cases h; rfl

lemma buildQuery_ok_status {q : ListQuery} {fq : FindQuery}
    (h : buildQuery q = .ok fq)
    (hcond : (truthy q.status && APPEAL_STATUSES.contains (q.status.getD "")) = true) :
    fq.status = q.status := by
  unfold buildQuery at h
  split at h
  next heq => cases h
  next fq1 heq =>
    split at h
    next heq2 => cases h
    next fq2 heq2 =>
      cases h
      unfold statusStep
      rw [if_pos hcond]

lemma mem_sortByCreatedAtDesc {a : Appeal} {l : List Appeal} :
    a ∈ sortByCreatedAtDesc l ↔ a ∈ l :=
  (List.perm_insertionSort createdAtDesc l).mem_iff

lemma matchesQuery_status {fq : FindQuery} {a : Appeal} {v : String}
    (hs : fq.status = some v) (h : matchesQuery fq a = true) :
    a.status = some v := by
  unfold matchesQuery at h
  rw [hs] at h
  simp only [Bool.and_eq_true] at h
  exact of_decide_eq_true h.2

lemma getAppeals_mem_matches {q : ListQuery} {s : Store} {fq : FindQuery} {a : Appeal}
    (hb : buildQuery q = .ok fq) (ha : a ∈ listedAppeals (getAppeals q s)) :
    matchesQuery fq a = true := by
  have hg : getAppeals q s =
      ⟨400, .arr (sortByCreatedAtDesc (s.docs.filter (matchesQuery fq)))⟩ := by
    unfold getAppeals
    rw [hb]
  rw [hg] at ha
  have ha' : a ∈ sortByCreatedAtDesc (s.docs.filter (matchesQuery fq)) := ha
  exact (List.mem_filter.mp (mem_sortByCreatedAtDesc.mp ha')).2

lemma listedAppeals_error {q : ListQuery} {s : Store} {r : Response}
    (hb : buildQuery q = .error r) : listedAppeals (getAppeals q s) = [] := by
  obtain ⟨m, hm⟩ := buildQuery_error_body hb
  have hg : getAppeals q s = r := by
    unfold getAppeals
    rw [hb]
  rw [hg]
  unfold listedAppeals
  rw [hm]

set_option maxRecDepth 100000 in
/-- C1: `getAppeals` performs no pagination at all and its success path
answers HTTP 400.  With 150 stored records and `limit=200`, all 150 records
come back in one bare array (the claim — and the route's own OpenAPI
documentation, and the repository's tests — say HTTP 200 with at most 100
records plus `page`/`limit`/`total`/`pages` metadata). -/
theorem C1_unpaginated_response :
    (getAppeals { limit := some "200", page := some "1" } store150).status = 400 ∧
    (listedAppeals (getAppeals { limit := some "200", page := some "1" } store150)).length
      = 150 := by decide

/-- C2: `createAppeal` on a valid title and description responds 201 with the
store-generated id, but the inserted document carries no `status` field at
all — the claim (and the data model) say its status is `new`. -/
theorem C2_created_without_status :
    (createAppeal (some "Test Appeal") (some "Test Description") 3 ⟨[], 0⟩).1
      = ⟨201, .msgId "Appeal created successfully" 0⟩ ∧
    (createAppeal (some "Test Appeal") (some "Test Description") 3 ⟨[], 0⟩).2.docs
      = [⟨0, "Test Appeal", "Test Description", none, 3, none, none, none⟩] := by decide

/-- C3: `completeAppeal` on an existing record with solution "fixed" responds
200 and sets `status = completed` and `updatedAt`, but the record's
`solution` field stays absent: the push of `solution` sits in `updateOne`'s
options argument and is never applied, while the claim says the solution is
recorded. -/
theorem C3_solution_not_recorded :
    (completeAppeal hexId1 (some "fixed") 5 storeOneInProgress).1.status = 200 ∧
    (completeAppeal hexId1 (some "fixed") 5 storeOneInProgress).2.docs
      = [⟨1, "Test Appeal", "Test Description", some "completed", 0, some 5,
          none, none⟩] := by decide

/-- C5 counterexample: combining `date` with `startDate`/`endDate`, supplying
only `startDate`, or supplying `startDate > endDate` — each with parseable
dates — does not produce a validation error, contrary to the claim. -/
theorem C5_counterexample :
    isErr (getAppeals
      { date := some "2025-05-17", startDate := some "2025-05-01", endDate := some "2025-05-31" }
      storeOneNew).body = false ∧
    isErr (getAppeals { startDate := some "2025-05-01" } storeOneNew).body = false ∧
    isErr (getAppeals
      { startDate := some "2025-05-31", endDate := some "2025-05-01" }
      storeOneNew).body = false := by decide

/-- C5 (amended): `getAppeals` reports a validation error exactly when the
`date` parameter is present and unparsable, or both `startDate` and
`endDate` are present and either is unparsable.  Combining `date` with the
range, supplying only one bound (which is ignored), and a reversed range are
all accepted without error. -/
theorem C5_validation_characterization (q : ListQuery) (s : Store) :
    isErr (getAppeals q s).body =
      ((truthy q.date && (parseDate (q.date.getD "")).isNone) ||
       ((truthy q.startDate && truthy q.endDate) &&
         ((parseDate (q.startDate.getD "")).isNone ||
          (parseDate (q.endDate.getD "")).isNone))) := by
  unfold getAppeals buildQuery dateStep rangeStep
  cases hd : truthy q.date with
  | false =>
    cases hr : truthy q.startDate && truthy q.endDate with
    | false => simp [hd, hr, isErr]
    | true =>
      cases hp1 : parseDate (q.startDate.getD "") <;>
        cases hp2 : parseDate (q.endDate.getD "") <;>
          simp [hd, hr, hp1, hp2, isErr]
  | true =>
    cases hp : parseDate (q.date.getD "") with
    | none => simp [hd, hp, isErr]
    | some t =>
      cases hr : truthy q.startDate && truthy q.endDate with
      | false => simp [hd, hp, hr, isErr]
      | true =>
        cases hp1 : parseDate (q.startDate.getD "") <;>
          cases hp2 : parseDate (q.endDate.getD "") <;>
            simp [hd, hp, hr, hp1, hp2, isErr]

/-- C9 counterexample: with two records sharing the same `createdAt`, the
result of `getAppeals` is not strictly descending — adjacent items have
equal timestamps. -/
theorem C9_counterexample :
    ¬ List.Sorted (fun a b : Appeal => b.createdAt < a.createdAt)
      (listedAppeals (getAppeals {} storeTie)) := by
  intro hsorted
  have hlist : listedAppeals (getAppeals {} storeTie)
      = [mkAppeal 1 5 (some "new"), mkAppeal 2 5 (some "new")] := by decide
  rw [hlist] at hsorted
  have h5 := (List.sorted_cons.mp hsorted).1 _ (List.mem_singleton_self _)
  exact absurd h5 (by decide)

/-- C9 (amended): for every filter combination, the records returned by
`getAppeals` are sorted in non-increasing (descending) order of `createdAt`;
ties in `createdAt` may yield adjacent equal values, so the order is
descending but not strictly so. -/
theorem C9_sorted_descending (q : ListQuery) (s : Store) :
    List.Sorted createdAtDesc (listedAppeals (getAppeals q s)) := by
  cases hb : buildQuery q with
  | error r =>
    rw [listedAppeals_error hb]
    exact List.sorted_nil
  | ok fq =>
    have hg : getAppeals q s =
        ⟨400, .arr (sortByCreatedAtDesc (s.docs.filter (matchesQuery fq)))⟩ := by
      unfold getAppeals
      rw [hb]
    rw [hg]
    show List.Sorted createdAtDesc (sortByCreatedAtDesc (s.docs.filter (matchesQuery fq)))
    unfold sortByCreatedAtDesc
    haveI : IsTotal Appeal createdAtDesc := ⟨fun a b => Int.le_total _ _⟩
    haveI : IsTrans Appeal createdAtDesc :=
      ⟨fun _ _ _ hab hbc => le_trans hbc hab⟩
    exact List.sorted_insertionSort createdAtDesc _

/-- C10: each validation failure happens before any store call and leaves the
store exactly as it was: `createAppeal` with a falsy title or description,
`completeAppeal` with a falsy solution and `cancelAppeal` with a falsy
reason each return the 400 response paired with the unchanged store. -/
theorem C10_validation_precedes_store (title description solution reason : Option String)
    (cid kid : String) (now : Int) (s : Store) :
    ((truthy title = false ∨ truthy description = false) →
      createAppeal title description now s
        = (⟨400, .msg "Title and description are required"⟩, s)) ∧
    (truthy solution = false →
      completeAppeal cid solution now s = (⟨400, .msg "Solution is required"⟩, s)) ∧
    (truthy reason = false →
      cancelAppeal kid reason now s = (⟨400, .msg "Reason is required"⟩, s)) := by
  refine ⟨?_, ?_, ?_⟩
  · intro h
    unfold createAppeal
    rcases h with h | h <;> rw [h] <;> simp
  · intro h
    unfold completeAppeal
    rw [h]
    simp
  · intro h
    unfold cancelAppeal
    rw [h]
    simp

/-- C4 counterexample: `completeAppeal` on a record whose status is
`canceled` — a terminal state — responds 200 and changes the status to
`completed`, so the transition-table invariant is not preserved. -/
theorem C4_counterexample :
    (completeAppeal hexId1 (some "fixed") 7 storeOneCanceled).1.status = 200 ∧
    (completeAppeal hexId1 (some "fixed") 7 storeOneCanceled).2.docs.map Appeal.status
      = [some "completed"] := by decide

/-- C4 (amended): the transition operations set their target status blindly,
without checking the current status: `completeAppeal` run with a valid
solution on an existing record in the terminal status `canceled` succeeds
and overwrites the status with `completed` (and `updatedAt` with now). -/
theorem C4_blind_status_overwrite (id : String) (solution : Option String)
    (oid : Nat) (now : Int) (s : Store) (a : Appeal)
    (hsol : truthy solution = true)
    (hid : parseObjectId id = some oid)
    (hfind : s.docs.find? (fun x => x._id = oid) = some a)
    (hterm : a.status = some "canceled") :
    (completeAppeal id solution now s).1 = ⟨200, .msg "Appeal updated successfully"⟩ ∧
    (completeAppeal id solution now s).2.docs.find? (fun x => x._id = oid)
      = some { a with status := some "completed", updatedAt := some now } := by
  have hp : ∀ x : Appeal, decide (x._id = oid) = true →
      decide ((setCompleted now x)._id = oid) = true := fun x hx => hx
  have hne : setCompleted now a ≠ a := by
    intro he
    have hst := congrArg Appeal.status he
    rw [hterm] at hst
    simp [setCompleted] at hst
  have hupd := updateFirst_find (fun x => x._id = oid) (setCompleted now) hp s.docs a hfind
  have hres : completeAppeal id solution now s =
      (⟨200, .msg "Appeal updated successfully"⟩,
       { s with docs := (updateFirst (fun x => x._id = oid) (setCompleted now) s.docs).1 }) := by
    unfold completeAppeal
    rw [hsol, hid]
    simp only [Bool.not_true]
    rw [if_neg (by simp)]
    rw [hupd.2, if_neg hne]
    simp
  rw [hres]
  exact ⟨rfl, hupd.1⟩

/-- Witness for C4 at concrete inputs: the single canceled record of
`storeOneCanceled` is found again with status `completed` after
`completeAppeal`. -/
theorem C4_witness :
    (completeAppeal hexId1 (some "fixed") 7 storeOneCanceled).1
      = ⟨200, .msg "Appeal updated successfully"⟩ ∧
    (completeAppeal hexId1 (some "fixed") 7 storeOneCanceled).2.docs.find?
        (fun x => x._id = 1)
      = some { mkAppeal 1 0 (some "canceled") with
               status := some "completed", updatedAt := some 7 } :=
  C4_blind_status_overwrite hexId1 (some "fixed") 1 7 storeOneCanceled
    (mkAppeal 1 0 (some "canceled")) (by decide) (by decide) (by decide) (by decide)

/-- C6 counterexample: `getAppeals` with the invalid status value "bogus"
does not fail with a validation error — it answers with the stored record,
the filter silently dropped. -/
theorem C6_counterexample :
    getAppeals { status := some "bogus" } storeOneNew
      = ⟨400, .arr [mkAppeal 1 0 (some "new")]⟩ := by decide

/-- C6 (amended): a status value outside the four valid ones is silently
ignored — the call behaves exactly as if no status filter had been given —
while for a valid status value every returned record carries that status. -/
theorem C6_status_filter (v : String) (q : ListQuery) (s : Store)
    (hq : q.status = some v) :
    (APPEAL_STATUSES.contains v = false →
      getAppeals q s = getAppeals { q with status := none } s) ∧
    (APPEAL_STATUSES.contains v = true →
      ∀ a ∈ listedAppeals (getAppeals q s), a.status = some v) := by
  constructor
  · intro hc
    have hnotmem : ¬ v ∈ APPEAL_STATUSES := by simpa using hc
    have hds : dateStep { q with status := none } = dateStep q := rfl
    have hrs : rangeStep { q with status := none } = rangeStep q := rfl
    have hss : statusStep { q with status := none } = statusStep q := by
      funext fq
      simp [statusStep, truthy, hq, hnotmem]
    unfold getAppeals buildQuery
    rw [hds, hrs, hss]
  · intro hc a ha
    have hv : v ∈ APPEAL_STATUSES := by simpa using hc
    have hcond : (truthy q.status && APPEAL_STATUSES.contains (q.status.getD "")) = true := by
      rw [hq]
      fin_cases hv <;> decide
    cases hb : buildQuery q with
    | error r =>
      rw [listedAppeals_error hb] at ha
      simp at ha
    | ok fq =>
      have hst : fq.status = some v := by
        rw [buildQuery_ok_status hb hcond, hq]
      exact matchesQuery_status hst (getAppeals_mem_matches hb ha)

/-- Witness for C6 at concrete inputs: the invalid value "bogus" leaves the
result identical to the unfiltered call, and filtering by "new" returns only
records whose status is `new`. -/
theorem C6_witness :
    (getAppeals { status := some "bogus" } storeOneNew
      = getAppeals { status := none } storeOneNew) ∧
    (∀ a ∈ listedAppeals (getAppeals { status := some "new" } storeOneNew),
      a.status = some "new") :=
  ⟨(C6_status_filter "bogus" { status := some "bogus" } storeOneNew rfl).1 (by decide),
   (C6_status_filter "new" { status := some "new" } storeOneNew rfl).2 (by decide)⟩

/-- C7 counterexample: `cancelAllAppealsWithInProgressStatus` called with no
reason at all succeeds (HTTP 200) on a store with an in-progress record,
contrary to the claim that a missing reason fails with a validation error. -/
theorem C7_counterexample :
    (cancelAllAppealsWithInProgressStatus none 5 storeOneInProgress).1.status
      = 200 := by decide

/-- C7 (amended): the bulk-cancel handler never validates or reads a reason;
whenever at least one record is `in-progress` it responds 200, cancels every
such record with `updatedAt = now` and leaves all other records unchanged,
and with zero `in-progress` records it responds 404 with the store
untouched. -/
theorem C7_bulk_cancel_behavior (reason : Option String) (now : Int) (s : Store) :
    (s.docs.any inProgressCheck = true →
      cancelAllAppealsWithInProgressStatus reason now s =
        (⟨200, .msg "All in-progress appeals updated successfully"⟩,
         ⟨s.docs.map (fun a => if inProgressCheck a then setCanceled now a else a),
          s.nextId⟩)) ∧
    (s.docs.any inProgressCheck = false →
      cancelAllAppealsWithInProgressStatus reason now s =
        (⟨404, .msg "No appeals found with in-progress status"⟩, s)) := by
  constructor
  · intro hany
    obtain ⟨a, ha, hpa⟩ := List.any_eq_true.mp hany
    have hpa' : a.status = some "in-progress" := by
      simpa [inProgressCheck] using hpa
    have hmod : (updateAll inProgressCheck (setCanceled now) s.docs).2 ≠ 0 := by
      rw [Ne, updateAll_snd_eq_zero]
      intro hall
      have heq := hall a ha hpa
      have hst := congrArg Appeal.status heq
      rw [hpa'] at hst
      simp [setCanceled] at hst
    unfold cancelAllAppealsWithInProgressStatus
    rw [if_neg hmod, updateAll_fst]
  · intro hnone
    have hmod : (updateAll inProgressCheck (setCanceled now) s.docs).2 = 0 := by
      rw [updateAll_snd_eq_zero]
      intro a ha hpa
      exact absurd (List.any_eq_true.mpr ⟨a, ha, hpa⟩)
        (by rw [hnone]; exact Bool.false_ne_true)
    unfold cancelAllAppealsWithInProgressStatus
    rw [if_pos hmod, updateAll_fst]
    have hmap : s.docs.map (fun a =>
        if inProgressCheck a then setCanceled now a else a) = s.docs := by
      have hfix : ∀ a ∈ s.docs,
          (if inProgressCheck a then setCanceled now a else a) = a := by
        intro a ha
        rw [if_neg]
        intro hpa
        exact absurd (List.any_eq_true.mpr ⟨a, ha, hpa⟩)
          (by rw [hnone]; exact Bool.false_ne_true)
      rw [List.map_congr_left hfix]
      simp
    rw [hmap]

/-- Witness for C7 at concrete inputs: on the store with two `in-progress`
records and one `new` record both in-progress records become `canceled` and
the `new` one is untouched, and on a store with no in-progress record the
handler answers 404. -/
theorem C7_witness :
    (cancelAllAppealsWithInProgressStatus none 5 storeBulk =
      (⟨200, .msg "All in-progress appeals updated successfully"⟩,
       ⟨storeBulk.docs.map (fun a => if inProgressCheck a then setCanceled 5 a else a),
        storeBulk.nextId⟩)) ∧
    (cancelAllAppealsWithInProgressStatus none 5 storeOneNew =
      (⟨404, .msg "No appeals found with in-progress status"⟩, storeOneNew)) :=
  ⟨(C7_bulk_cancel_behavior none 5 storeBulk).1 (by decide),
   (C7_bulk_cancel_behavior none 5 storeOneNew).2 (by decide)⟩

/-- C8 counterexample: `workOnAppeal` on the malformed identifier
"not-an-objectid" — fifteen characters, so neither a 12-character byte string
nor 24 hex characters — surfaces as the 500 internal-error response, a
distinct error class, not as the 404 not-found the claim requires. -/
theorem C8_counterexample :
    (workOnAppeal "not-an-objectid" 3 storeOneNew).1
      = ⟨500, .msg "Internal server error"⟩ := by decide

/-- C8 (amended): an identifier the ObjectId constructor accepts — a
24-character hex string or any 12-character string — that matches no record
fails with the 404 not-found response and leaves the store unchanged, but an
identifier the constructor rejects (neither form) makes it throw inside the
`try` block and surfaces as the 500 internal-error response instead. -/
theorem C8_notfound_vs_internal (id : String) (now : Int) (s : Store) :
    (parseObjectId id = none →
      workOnAppeal id now s = (⟨500, .msg "Internal server error"⟩, s)) ∧
    (∀ oid, parseObjectId id = some oid →
      (∀ a ∈ s.docs, a._id ≠ oid) →
      workOnAppeal id now s = (⟨404, .msg "Appeal not found"⟩, s)) := by
  constructor
  · intro h
    unfold workOnAppeal
    rw [h]
  · intro oid h hnone
    have hupd := updateFirst_no_match (fun a => a._id = oid) (setInProgress now) s.docs
      (fun a ha => by simp [hnone a ha])
    unfold workOnAppeal
    rw [h]
    simp only [hupd]
    rfl

/-- Witness for C8 at concrete inputs: a rejected id yields the 500
response, while the unknown 24-hex ObjectId of document 2 and the accepted
12-character id "microsoft123" each yield the 404 response, all leaving the
store as it was. -/
theorem C8_witness :
    (workOnAppeal "not-an-objectid" 3 storeOneNew
      = (⟨500, .msg "Internal server error"⟩, storeOneNew)) ∧
    (workOnAppeal hexId2 3 storeOneNew
      = (⟨404, .msg "Appeal not found"⟩, storeOneNew)) ∧
    (workOnAppeal "microsoft123" 3 storeOneNew
      = (⟨404, .msg "Appeal not found"⟩, storeOneNew)) :=
  ⟨(C8_notfound_vs_internal "not-an-objectid" 3 storeOneNew).1 (by decide),
   (C8_notfound_vs_internal hexId2 3 storeOneNew).2 2 (by decide) (by decide),
   (C8_notfound_vs_internal "microsoft123" 3 storeOneNew).2
     33861272906827662098468778547 (by decide) (by decide)⟩

/-- Witness for C10 at concrete inputs: a missing title, an empty solution
and a missing reason each produce the 400 response and leave the store
untouched. -/
theorem C10_witness :
    (createAppeal none (some "Test Description") 3 storeOneNew
      = (⟨400, .msg "Title and description are required"⟩, storeOneNew)) ∧
    (completeAppeal hexId1 (some "") 3 storeOneNew
      = (⟨400, .msg "Solution is required"⟩, storeOneNew)) ∧
    (cancelAppeal hexId1 none 3 storeOneNew
      = (⟨400, .msg "Reason is required"⟩, storeOneNew)) :=
  ⟨(C10_validation_precedes_store none (some "Test Description") (some "x") (some "x")
      hexId1 hexId1 3 storeOneNew).1 (Or.inl (by decide)),
   (C10_validation_precedes_store (some "t") (some "d") (some "") (some "x")
      hexId1 hexId1 3 storeOneNew).2.1 (by decide),
   (C10_validation_precedes_store (some "t") (some "d") (some "x") none
      hexId1 hexId1 3 storeOneNew).2.2 (by decide)⟩

end Appeals
